import Mathlib

/-!
Verification development for the MotoRoute Telegram bot (`flask_app.py`).

Modelling conventions:
* Python's exact integer arithmetic is `ℕ`/`ℤ`; the float divisions and
  additions performed on decoded polyline integers are modelled exactly
  over `ℚ`; trigonometric code is modelled over `ℝ`.
* The string handed to the polyline decoder is modelled as its list of
  code points (`List ℕ`), since the decoder only ever inspects `ord` of
  single characters.
* Fallible code returns `Except`/`Option`; an uncaught Python `IndexError`
  is the value `PyDecodeError.indexOutOfBounds`.
-/

namespace MotoRoute

/-- Errors attributable to `decode_polyline6`.  `indexOutOfBounds` models the
uncaught Python `IndexError` raised by `ord(polyline_str[index])` once `index`
runs past the end of the string.  `malformedShape` is the distinguished error
demanded by the specification's error taxonomy; it is carried here only so
that statements can compare the code's actual failure against it — no code
path produces it. -/
inductive PyDecodeError where
  | indexOutOfBounds
  | malformedShape
deriving DecidableEq

/-- Zig-zag sign recovery, line 212 of `flask_app.py`:
`changes[unit] = ~(result >> 1) if (result & 1) else (result >> 1)`,
with Python `~x = -x - 1`. -/
def unzigzag (result : ℕ) : ℤ :=
  if result &&& 1 = 1 then -((result >>> 1 : ℕ) : ℤ) - 1 else ((result >>> 1 : ℕ) : ℤ)

/-- Body of `decode_polyline6` (lines 202–215), flattened into a character-at-
a-time state machine so that the recursion is structural on the string.  The
state is: `isLat` (which member of `("lat", "lng")` the inner `for` loop is
on), the `shift`/`result` registers of the varint loop, the running `lat`/
`lng` accumulators, and the `coords` list built so far.  Each step reads one
character `c`, computes `b = ord(c) - 63`, merges `(b & 0x1f) << shift` into
`result`, and either continues the varint run (continuation bit `0x20` set)
or closes the current value.  Reaching the end of the string in the middle of
a value is exactly the situation in which the Python code evaluates
`polyline_str[index]` out of bounds. -/
def decodeGo : List ℕ → Bool → ℕ → ℕ → ℤ → ℤ → List (ℚ × ℚ) →
    Except PyDecodeError (List (ℚ × ℚ))
  | [], _, _, _, _, _, _ => .error .indexOutOfBounds
  | c :: rest, isLat, shift, result, lat, lng, acc =>
    let b : ℤ := (c : ℤ) - 63
    let result1 : ℕ := result ||| ((b % 32).toNat <<< shift)
    if b < 32 then
      if isLat then
        decodeGo rest false 0 0 (lat + unzigzag result1) lng acc
      else
        let lng1 := lng + unzigzag result1
        let acc1 := acc ++ [((lat : ℚ) / 1000000, (lng1 : ℚ) / 1000000)]
        match rest with
        | [] => .ok acc1
        | _ :: _ => decodeGo rest true 0 0 lat lng1 acc1
    else
      decodeGo rest isLat (shift + 5) result1 lat lng acc

/-- Model of `decode_polyline6` (lines 199–216): the outer `while index <
len(polyline_str)` loop starts a new (lat, lng) pair whenever characters
remain, so an empty string yields an empty coordinate list and a non-empty
string enters `decodeGo` reading a latitude value. -/
def decode_polyline6 (s : List ℕ) : Except PyDecodeError (List (ℚ × ℚ)) :=
  match s with
  | [] => .ok []
  | _ :: _ => decodeGo s true 0 0 0 0 []

/-- Modelled from the spec: the repository contains no polyline encoder, only
the decoder; §4.2 describes the scheme ("5-bit groups, continuation bit 0x20,
values biased by 63").  `encodeChunks` splits a non-negative value into its
5-bit groups, least significant first, setting `0x20` on every group except
the last. -/
def encodeChunks (n : ℕ) : List ℕ :=
  if n < 32 then [n] else (32 + n % 32) :: encodeChunks (n / 32)
  termination_by n
  decreasing_by exact Nat.div_lt_self (by omega) (by omega)

/-- Modelled from the spec: zig-zag packing of a signed delta (`v << 1`,
complemented when negative), the inverse of `unzigzag`. -/
def zigzag (v : ℤ) : ℕ :=
  if v < 0 then 2 * v.natAbs - 1 else 2 * v.natAbs

/-- Modelled from the spec: a single encoded value is its zig-zagged 5-bit
groups, each biased by 63. -/
def encodeValue (v : ℤ) : List ℕ :=
  (encodeChunks (zigzag v)).map (fun b => b + 63)

/-- Modelled from the spec: the encoder emits consecutive signed deltas of
the (already 1e6-scaled, integral) coordinates, latitude before longitude. -/
def encodeDeltas : List (ℤ × ℤ) → ℤ → ℤ → List ℕ
  | [], _, _ => []
  | p :: rest, plat, plng =>
    encodeValue (p.1 - plat) ++ (encodeValue (p.2 - plng) ++ encodeDeltas rest p.1 p.2)

/-- Modelled from the spec: the standard polyline encoder at scale 1e6.  Its
input is the coordinate sequence in units of 1e-6 degrees (the integers the
scheme transports); deltas start from (0, 0). -/
def encode_polyline6 (pts : List (ℤ × ℤ)) : List ℕ :=
  encodeDeltas pts 0 0

/-- Continuation of `decodeGo` once a full varint value `v` has been read:
close the latitude slot and start the longitude value, or close the pair,
append the scaled point and re-enter the outer loop (a restatement of the
value-complete branch of `decodeGo`, used to phrase the round-trip lemma). -/
def decodeAfterValue (v : ℕ) (rest : List ℕ) (isLat : Bool) (lat lng : ℤ)
    (acc : List (ℚ × ℚ)) : Except PyDecodeError (List (ℚ × ℚ)) :=
  if isLat then
    decodeGo rest false 0 0 (lat + unzigzag v) lng acc
  else
    let lng1 := lng + unzigzag v
    let acc1 := acc ++ [((lat : ℚ) / 1000000, (lng1 : ℚ) / 1000000)]
    match rest with
    | [] => .ok acc1
    | _ :: _ => decodeGo rest true 0 0 lat lng1 acc1

/-- Scaling applied by the decoder when appending a point (line 215 divides
the accumulated integers by `1e6`). -/
def scalePoint (p : ℤ × ℤ) : ℚ × ℚ :=
  ((p.1 : ℚ) / 1000000, (p.2 : ℚ) / 1000000)

/-- Companion boolean scan with exactly the control flow of `decodeGo` but no
coordinate bookkeeping: `true` iff the string splits into complete zig-zag
varint (lat, lng) pairs, i.e. iff the decoder consumes the whole string. -/
def scanValues : List ℕ → Bool → Bool
  | [], _ => false
  | c :: rest, isLat =>
    if (c : ℤ) - 63 < 32 then
      if isLat then scanValues rest false
      else
        match rest with
        | [] => true
        | _ :: _ => scanValues rest true
    else scanValues rest isLat

/-- Well-formedness of an encoded string: it is empty or consists of complete
varint pairs; exactly the inputs on which `decode_polyline6` succeeds. -/
def pairsOk (s : List ℕ) : Bool :=
  match s with
  | [] => true
  | _ :: _ => scanValues s true

/-- Failure condition named by the specification: "the string ends while a
5-bit group still has its continuation bit (0x20) set", i.e. the last
character of the string carries the continuation bit. -/
def endsInContinuation (s : List ℕ) : Bool :=
  match s.getLast? with
  | none => false
  | some c => decide (32 ≤ (c : ℤ) - 63)

/-- Statement of claim C6 as written: whenever a continuation run exceeds the
string bounds, the decoder fails with the distinguished `MalformedShape`
error (rather than an unhandled out-of-bounds access). -/
def claimC6 : Prop :=
  ∀ s : List ℕ, endsInContinuation s = true →
    decode_polyline6 s = .error .malformedShape

/-- Maneuver of one oracle leg: instruction text plus its
`begin_shape_index`, which is relative to the leg's own shape. -/
structure Maneuver where
  instruction : String
  begin_shape_index : ℤ
deriving DecidableEq

/-- One leg of the oracle's trip: encoded shape string, summary length (km)
and time (seconds), and its maneuver list. -/
structure Leg where
  shape : List ℕ
  length : ℚ
  time : ℚ
  maneuvers : List Maneuver
deriving DecidableEq

/-- Output maneuver as built by `valhalla_route`: instruction plus the
resolved coordinate. -/
structure ManeuverOut where
  instruction : String
  lat : ℚ
  lon : ℚ
deriving DecidableEq

/-- Result of the leg-merging loop of `valhalla_route`: flat coordinates,
accumulated totals, resolved maneuvers. -/
structure MergedTrip where
  coords : List (ℚ × ℚ)
  total_km : ℚ
  total_min : ℚ
  maneuvers : List ManeuverOut
deriving DecidableEq

/-- Per-leg maneuver resolution (lines 546–555 of `flask_app.py`): each
maneuver's leg-local `begin_shape_index` is bounds-checked with
`0 <= idx < len(coords)` against the coordinates merged so far and, if in
range, resolved immediately against that merged list — the index is not
rebased by the lengths of previous legs; out-of-range maneuvers are silently
skipped. -/
def processManeuvers (coords : List (ℚ × ℚ)) (ms : List Maneuver) :
    List ManeuverOut :=
  ms.filterMap fun m =>
    if h : 0 ≤ m.begin_shape_index ∧ m.begin_shape_index.toNat < coords.length then
      some ⟨m.instruction, (coords.get ⟨m.begin_shape_index.toNat, h.2⟩).1,
        (coords.get ⟨m.begin_shape_index.toNat, h.2⟩).2⟩
    else none

/-- Leg-merging loop of `valhalla_route` (lines 537–555): for each leg in
order, decode its shape (skipped when absent/empty, per `if shape:`) and
extend the merged coordinate list with it — with no junction
de-duplication — accumulate summary length and time, and resolve the leg's
maneuvers against the coordinates merged so far. -/
def mergeLegsGo : List Leg → List (ℚ × ℚ) → ℚ → ℚ → List ManeuverOut →
    Except PyDecodeError MergedTrip
  | [], coords, km, mn, mans => .ok ⟨coords, km, mn, mans⟩
  | leg :: rest, coords, km, mn, mans =>
    match (if leg.shape = [] then Except.ok coords
           else Except.map (fun dc => coords ++ dc) (decode_polyline6 leg.shape)) with
    | .error e => .error e
    | .ok coords1 =>
      mergeLegsGo rest coords1 (km + leg.length) (mn + leg.time / 60)
        (mans ++ processManeuvers coords1 leg.maneuvers)

/-- Merging of a whole trip, starting from the empty accumulators of lines
532–535. -/
def mergeLegs (legs : List Leg) : Except PyDecodeError MergedTrip :=
  mergeLegsGo legs [] 0 0 []

/-- First example leg of claims C3/C5: shape decoding to
[(0,0), (0,1), (0,2)] (degrees), no maneuvers. -/
def exLeg1 : Leg :=
  ⟨encode_polyline6 [(0, 0), (0, 1000000), (0, 2000000)], 0, 0, []⟩

/-- Second example leg of claim C3: shape decoding to [(0,2), (0,3)]. -/
def exLeg2 : Leg :=
  ⟨encode_polyline6 [(0, 2000000), (0, 3000000)], 0, 0, []⟩

/-- Second example leg of claim C5: same shape as `exLeg2` plus one maneuver
whose leg-local begin index is 0 (the leg's own first point, (0,2)). -/
def exLeg2m : Leg :=
  ⟨encode_polyline6 [(0, 2000000), (0, 3000000)], 0, 0, [⟨"turn right", 0⟩]⟩

/-- Statement of claim C3 at its own example: merging legs with shapes
[(0,0),(0,1),(0,2)] and [(0,2),(0,3)] yields merged coordinates
[(0,0),(0,1),(0,2),(0,3)] — the duplicated junction point dropped. -/
def claimC3 : Prop :=
  (mergeLegs [exLeg1, exLeg2]).map MergedTrip.coords =
    .ok [(0, 0), (0, 1), (0, 2), (0, 3)]

/-- Statement of claim C5 at the example: the second leg's maneuver with
leg-local begin index 0 is translated by the running total of merged
coordinates before that leg (3), giving global index 3, which is within the
merged length, so the maneuver resolves to the point (0, 2). -/
def claimC5 : Prop :=
  (mergeLegs [exLeg1, exLeg2m]).map MergedTrip.maneuvers =
    .ok [⟨"turn right", 0, 2⟩]

/-- Model of Python's `math.radians`. -/
noncomputable def radians (x : ℝ) : ℝ := x * Real.pi / 180

/-- Model of Python's `math.atan2` (two-argument arctangent; `atan2 0 0 = 0`
as in IEEE/C for positive zeros, signed zeros having no counterpart in ℝ). -/
noncomputable def atan2 (y x : ℝ) : ℝ :=
  if 0 < x then Real.arctan (y / x)
  else if x < 0 then
    (if 0 ≤ y then Real.arctan (y / x) + Real.pi else Real.arctan (y / x) - Real.pi)
  else if 0 < y then Real.pi / 2
  else if y < 0 then -(Real.pi / 2)
  else 0

/-- Model of Python's float `%` for a positive modulus (used on bearings). -/
noncomputable def pymod (a b : ℝ) : ℝ := a - b * (⌊a / b⌋ : ℤ)

/-- Model of `haversine_km` (lines 64–71): spherical distance with Earth
radius 6371 km. -/
noncomputable def haversine_km (a b : ℝ × ℝ) : ℝ :=
  let R : ℝ := 6371
  let lat1 := radians a.1
  let lat2 := radians b.1
  let dlat := lat2 - lat1
  let dlon := radians (b.2 - a.2)
  let h := Real.sin (dlat / 2) ^ 2 +
    Real.cos lat1 * Real.cos lat2 * Real.sin (dlon / 2) ^ 2
  2 * R * atan2 (Real.sqrt h) (Real.sqrt (1 - h))

/-- Location dictionary `{"lat": .., "lon": ..}` used in oracle requests. -/
structure Loc where
  lat : ℝ
  lon : ℝ

/-- Model of `approx_total_km_from_locs` (lines 73–85): straight-line
haversine length of the location polygon, closing the loop when `roundtrip`. -/
noncomputable def approx_total_km_from_locs (locs : List Loc) (roundtrip : Bool) : ℝ :=
  match locs with
  | [] => 0
  | [_] => 0
  | l0 :: rest =>
    let pts := (l0 :: rest).map (fun l => (l.lat, l.lon))
    let total := (pts.zip pts.tail).foldl (fun acc p => acc + haversine_km p.1 p.2) 0
    if roundtrip then
      total +
        haversine_km
          (((l0 :: rest).getLast (by simp)).lat, ((l0 :: rest).getLast (by simp)).lon)
          (l0.lat, l0.lon)
    else total

/-- Model of `offset_point` (lines 227–237): geodesic destination point from
(lat, lon) at `km` kilometres along `bearing_deg` degrees, Earth radius
6371 km. -/
noncomputable def offset_point (lat lon km bearing_deg : ℝ) : ℝ × ℝ :=
  let R : ℝ := 6371
  let br := radians bearing_deg
  let lat1 := radians lat
  let lon1 := radians lon
  let d := km / R
  let lat2 := Real.arcsin (Real.sin lat1 * Real.cos d +
    Real.cos lat1 * Real.sin d * Real.cos br)
  let lon2 := lon1 + atan2 (Real.sin br * Real.sin d * Real.cos lat1)
    (Real.cos d - Real.sin lat1 * Real.sin lat2)
  (lat2 * 180 / Real.pi, lon2 * 180 / Real.pi)

/-- Model of `seed_roundtrip_locations` (lines 239–245): synthesizes exactly
two waypoints, at bearings (base+90)%360 and (base+180)%360, at distances
`base_km` and `0.9 * base_km`. -/
noncomputable def seed_roundtrip_locations (start_lat start_lon base_km bearing_deg : ℝ) :
    List Loc :=
  let a_bearing := pymod (bearing_deg + 90) 360
  let b_bearing := pymod (bearing_deg + 180) 360
  let wp_a := offset_point start_lat start_lon base_km a_bearing
  let wp_b := offset_point start_lat start_lon (base_km * 0.9) b_bearing
  [⟨wp_a.1, wp_a.2⟩, ⟨wp_b.1, wp_b.2⟩]

/-- Loop body of `tune_roundtrip_length` (lines 253–272): for each candidate
base radius build the location list (user waypoints verbatim when present,
else the two seeded points), score its haversine approximation against the
band, keep the best-scoring candidate, and stop early on an in-band
candidate. -/
noncomputable def tuneGo (slat slon : ℝ) (wps : List (ℝ × ℝ)) (dmin dmax bearing : ℝ) :
    List ℝ → Option (ℝ × ℝ × List Loc × ℝ) → Option (ℝ × ℝ × List Loc × ℝ)
  | [], best => best
  | base :: rest, best =>
    let locs := Loc.mk slat slon :: (match wps with
      | [] => seed_roundtrip_locations slat slon base bearing
      | _ :: _ => wps.map (fun w => ⟨w.1, w.2⟩))
    let approx := approx_total_km_from_locs locs true
    let score : ℝ := if dmin ≤ approx ∧ approx ≤ dmax then 1000
      else if approx < dmin then -(dmin - approx) else -(approx - dmax)
    let best1 := match best with
      | none => some (score, base, locs, approx)
      | some b => if b.1 < score then some (score, base, locs, approx) else some b
    if dmin ≤ approx ∧ approx ≤ dmax then best1
    else tuneGo slat slon wps dmin dmax bearing rest best1

/-- Model of `tune_roundtrip_length` (lines 247–275): candidate base radii
[18, 20, 22] with user waypoints, [18, 20, 22, 24, 26] without; returns the
best candidate's locations, base and approximate length.  (The `none` arm is
unreachable: the candidate list is never empty, mirroring the unconditional
tuple unpacking of line 274.) -/
noncomputable def tune_roundtrip_length (slat slon : ℝ) (wps : List (ℝ × ℝ))
    (dmin dmax bearing : ℝ) : List Loc × ℝ × ℝ :=
  let cands : List ℝ := match wps with
    | [] => [18, 20, 22, 24, 26]
    | _ :: _ => [18, 20, 22]
  match tuneGo slat slon wps dmin dmax bearing cands none with
  | some (_, base, locs, approx) => (locs, base, approx)
  | none => ([], 0, 0)

/-- Modelled from the spec: §4.1's `initialBearing(a, b)` — the forward
azimuth from a to b in degrees normalized to [0, 360).  No bearing function
exists in `flask_app.py`; claim C4 speaks of waypoints "whose bearings from
the start are exactly B−40° and B+40°", so the standard great-circle initial
bearing is modelled here from the spec's description. -/
noncomputable def initialBearing (lat1 lon1 lat2 lon2 : ℝ) : ℝ :=
  let p1 := radians lat1
  let p2 := radians lat2
  let dl := radians (lon2 - lon1)
  let theta := atan2 (Real.sin dl * Real.cos p2)
    (Real.cos p1 * Real.sin p2 - Real.sin p1 * Real.cos p2 * Real.cos dl)
  let deg := theta * 180 / Real.pi
  if deg < 0 then deg + 360 else deg

/-- Normalization of a bearing in degrees to [0, 360). -/
noncomputable def normDeg (d : ℝ) : ℝ := pymod d 360

/-- Statement of claim C4 as written: for every start point and base bearing
B, given exactly two user waypoints at bearings B−40° and B+40° from the
start, the synthesizer assigns them to those two slots and synthesizes only
the middle (bearing B) slot by geodesic projection at the target radius — so
the produced location list is [start, w1, destination(start, r, B), w2]. -/
def claimC4 : Prop :=
  ∀ (slat slon B dmin dmax : ℝ) (w1 w2 : ℝ × ℝ),
    initialBearing slat slon w1.1 w1.2 = normDeg (B - 40) →
    initialBearing slat slon w2.1 w2.2 = normDeg (B + 40) →
    ∃ r : ℝ,
      (tune_roundtrip_length slat slon [w1, w2] dmin dmax B).1 =
        [⟨slat, slon⟩, ⟨w1.1, w1.2⟩,
         ⟨(offset_point slat slon r B).1, (offset_point slat slon r B).2⟩,
         ⟨w2.1, w2.2⟩]

/-- Response of one HTTP POST to a Valhalla endpoint, as the code
distinguishes them: a transport failure or non-2xx status (retried inside
`post_valhalla`), a 2xx JSON body without a `trip` field (moves on to the
next URL), or a body with a `trip` holding legs. -/
inductive OracleResp where
  | fail
  | okNoTrip
  | okTrip (legs : List Leg)

/-- Model of `post_valhalla` (lines 405–416): up to `attempts`
(= retries + 1) POSTs against one URL; returns the first non-failure
response together with the index of the next oracle call.  The oracle is a
function of the call index alone, which is faithful because the payload is
fixed for the whole of one `valhalla_route` run. -/
def post_valhalla (oracle : ℕ → OracleResp) : ℕ → ℕ → Option OracleResp × ℕ
  | 0, i => (none, i)
  | n + 1, i =>
    match oracle i with
    | .fail => post_valhalla oracle n (i + 1)
    | r => (some r, i + 1)

/-- URL loop of `valhalla_route` (lines 509–529): try each configured URL
with `post_valhalla(url, payload, timeout=30, retries=1)` (two attempts);
stop at the first response containing a `trip`, otherwise record the error
and move to the next URL. -/
def try_urls (oracle : ℕ → OracleResp) : ℕ → ℕ → Option (List Leg) × ℕ
  | 0, i => (none, i)
  | u + 1, i =>
    match post_valhalla oracle 2 i with
    | (some (.okTrip legs), i1) => (some legs, i1)
    | (some _, i1) => try_urls oracle u i1
    | (none, i1) => try_urls oracle u i1

/-- Model of Python's `round(x, 1)` on the exact values arising here
(floor of x·10 + 1/2, divided by 10; Python's banker's rounding differs only
at exact .x5 midpoints, which no claim touches). -/
def round1 (q : ℚ) : ℚ := ((⌊q * 10 + 1 / 2⌋ : ℤ) : ℚ) / 10

/-- Failure modes of `valhalla_route`: `notConfigured` (line 490),
`indexError` (`locs[0]` on an empty location list, line 494),
`premiumBlocked` (the `PermissionError`, line 500), `valhallaError`
(line 529), and a decode failure escaping from `decode_polyline6`. -/
inductive RouteErr where
  | notConfigured
  | indexError
  | premiumBlocked
  | valhallaError
  | decodeFailure (e : PyDecodeError)

/-- Costing-option dictionary of `build_motorcycle_costing`. -/
structure Costing where
  use_highways : ℚ
  use_primary : ℚ
  use_secondary : ℚ
  use_tertiary : ℚ
  use_living_streets : Option ℚ
  use_curves : ℚ
  use_hills : ℚ
  exclude_unpaved : Bool
  avoid_bad_surfaces : Bool

/-- Model of `build_motorcycle_costing` (lines 419–485): four styles, the
`curvy` and `super_curvy` ones reserved to the owner (`None` otherwise). -/
def build_motorcycle_costing (style : String) (is_owner : Bool) : Option Costing :=
  if style = "standard" then
    some ⟨0.5, 0.8, 1, 1, none, 0, 0, true, true⟩
  else if style = "curvy_light" then
    some ⟨0, 0.4, 0.9, 1.1, none, 0.6, 0.4, true, true⟩
  else if style = "curvy" then
    if is_owner then some ⟨0, 0.2, 1, 1.3, none, 1.4, 0.8, true, true⟩ else none
  else if style = "super_curvy" then
    if is_owner then some ⟨0, 0.1, 0.8, 1.5, some 1.6, 2.2, 1.2, true, true⟩ else none
  else none

/-- Location list actually submitted to the oracle (lines 492–495): for a
round trip, a fresh copy of the first location is appended; `locs[0]` on an
empty list is Python's `IndexError`, i.e. `none`. -/
def valhalla_locs (locations : List Loc) (roundtrip : Bool) : Option (List Loc) :=
  if roundtrip then
    match locations with
    | [] => none
    | s :: _ => some (locations ++ [⟨s.lat, s.lon⟩])
  else some locations

/-- Model of `valhalla_route` (lines 488–557) over an abstract oracle:
configuration check, round-trip closure of the location list, costing
(premium) check, the URL/retry loop, then the leg merge, with the totals
rounded to one decimal.  `nUrls` is the number of configured Valhalla URLs;
the second component counts the oracle HTTP calls made. -/
def valhalla_route (oracle : ℕ → OracleResp) (nUrls : ℕ) (locations : List Loc)
    (style : String) (roundtrip : Bool) (is_owner : Bool) :
    Except RouteErr MergedTrip × ℕ :=
  if nUrls = 0 then (.error .notConfigured, 0)
  else
    match valhalla_locs locations roundtrip with
    | none => (.error .indexError, 0)
    | some _ =>
      match build_motorcycle_costing style is_owner with
      | none => (.error .premiumBlocked, 0)
      | some _ =>
        match try_urls oracle nUrls 0 with
        | (none, calls) => (.error .valhallaError, calls)
        | (some legs, calls) =>
          match mergeLegs legs with
          | .error e => (.error (.decodeFailure e), calls)
          | .ok res =>
            (.ok ⟨res.coords, round1 res.total_km, round1 res.total_min,
              res.maneuvers⟩, calls)

/-- Configured round-trip band and total-length limit (lines 25–28). -/
def RT_TARGET_MIN : ℝ := 70

/-- Upper bound of the round-trip band. -/
def RT_TARGET_MAX : ℝ := 80

/-- Hard limit on the approximate total route length (line 25). -/
def MAX_ROUTE_KM : ℝ := 120

/-- Outcome of the round-trip branch of the route-computation block. -/
inductive RTOutcome where
  | limitsExceeded
  | premium
  | routeNotFound
  | routed (res : MergedTrip)

/-- Model of the round-trip path of the `style_selected` block (lines
1717–1756, as written — see claim C10 for its reachability): tune the
location list, re-check the haversine approximation against `MAX_ROUTE_KM`,
then call `valhalla_route` once, mapping `PermissionError` to the premium
message and any other exception to "route not found".  The second component
counts oracle calls. -/
noncomputable def roundtrip_compute (oracle : ℕ → OracleResp) (nUrls : ℕ)
    (slat slon : ℝ) (wps : List (ℝ × ℝ)) (bearing : ℝ) (style : String)
    (is_owner : Bool) : RTOutcome × ℕ :=
  let locs := (tune_roundtrip_length slat slon wps RT_TARGET_MIN RT_TARGET_MAX bearing).1
  let approx := approx_total_km_from_locs locs true
  if approx > MAX_ROUTE_KM then (.limitsExceeded, 0)
  else
    match valhalla_route oracle nUrls locs style true is_owner with
    | (.error .premiumBlocked, calls) => (.premium, calls)
    | (.error _, calls) => (.routeNotFound, calls)
    | (.ok res, calls) => (.routed res, calls)

/-- Single-leg trip with a given summary distance, no shape, no maneuvers. -/
def stubLeg (d : ℚ) : Leg := ⟨[], d, 0, []⟩

/-- Oracle stub of claim C2: successive responses with total distances 95,
82 and 76 km. -/
def stubOracle : ℕ → OracleResp := fun n =>
  if n = 0 then .okTrip [stubLeg 95]
  else if n = 1 then .okTrip [stubLeg 82]
  else .okTrip [stubLeg 76]

/-- Statement of claim C2 as written: with the stub oracle returning 95, 82,
76 km on successive attempts and acceptance band [70, 80], a round-trip
correction run accepts on the third attempt — returning the 76 km trip — and
invokes the oracle exactly 3 times. -/
def claimC2 : Prop :=
  ∀ (slat slon : ℝ) (wps : List (ℝ × ℝ)) (bearing : ℝ),
    (roundtrip_compute stubOracle 1 slat slon wps bearing "standard" false).2 = 3 ∧
    ∃ res, (roundtrip_compute stubOracle 1 slat slon wps bearing "standard" false).1 =
      .routed res ∧ res.total_km = 76

/-- Modelled from the spec: the Elevation Profile Builder (§4.7) is absent
from `flask_app.py` (the repository contains no elevation code), so its
interpolation step is modelled from the spec's words.  `prevKnown` finds the
nearest known sample at an index strictly below `i`. -/
def prevKnown (samples : List (Option ℚ)) (i : ℕ) : Option (ℕ × ℚ) :=
  ((samples.take i).enum.filterMap (fun p => p.2.map (fun v => (p.1, v)))).getLast?

/-- Modelled from the spec: the nearest known sample at an index strictly
above `i`. -/
def nextKnown (samples : List (Option ℚ)) (i : ℕ) : Option (ℕ × ℚ) :=
  ((samples.drop (i + 1)).enum.filterMap
    (fun p => p.2.map (fun v => (i + 1 + p.1, v)))).head?

/-- Modelled from the spec (§4.7 step 3): "Linearly interpolate missing
values between the nearest two known neighbors; points before the first
known value take the first known value; points after the last known value
take the last known value."  A sample with no known neighbor on either side
stays unknown. -/
def interpolate_elevations (samples : List (Option ℚ)) : List (Option ℚ) :=
  samples.enum.map fun p =>
    match p.2 with
    | some v => some v
    | none =>
      match prevKnown samples p.1, nextKnown samples p.1 with
      | some (j, vj), some (k, vk) =>
        some (vj + (vk - vj) * ((p.1 : ℚ) - (j : ℚ)) / ((k : ℚ) - (j : ℚ)))
      | none, some (_, vk) => some vk
      | some (_, vj), none => some vj
      | none, none => none

/-- Per-user conversation state dictionary created by `reset_state`
(lines 1334–1343); `endLoc` models the `"end"` key. -/
structure UserState where
  phase : String
  start : Option (ℝ × ℝ)
  endLoc : Option (ℝ × ℝ)
  waypoints : List (ℝ × ℝ)
  style : Option String
  roundtrip : Bool
  direction : Option String

/-- Model of `reset_state` (lines 1334–1343). -/
def reset_state : UserState := ⟨"start", none, none, [], none, false, none⟩

/-- Process-wide mutable state touched by the webhook handler: the
`AUTHORIZED` and `PENDING` sets and the `LAST_DOWNLOAD` map
(`LAST_DOWNLOAD.get(uid, 0)` modelled as a total function defaulting 0). -/
structure Globals where
  authorized : List ℤ
  pending : List ℤ
  last_download : ℤ → ℚ

/-- Outward-visible side effects of one webhook invocation.  Messages are
tagged by the name of the Python string constant they send; `oracleCalls n`
records that the route computation performed `n` Valhalla HTTP calls. -/
inductive Effect where
  | answeredCallback
  | message (tag : String)
  | photo
  | document (name : String)
  | oracleCalls (n : ℕ)

/-- Route artifacts and oracle activity: the effects that only the
route-computation block can emit (the PNG photo, the GPX documents, and
Valhalla calls). -/
def Effect.isRouteArtifact : Effect → Bool
  | .photo => true
  | .document _ => true
  | .oracleCalls _ => true
  | _ => false

/-- HTTP response of the webhook route: `jsonify(ok=True)`, the 403 for a
bad token, or an uncaught exception (HTTP 500), e.g. `state["start"][0]`
with `start = None`. -/
inductive WebhookResp where
  | okTrue
  | forbidden
  | crashed

/-- Model of `BEARING_MAP` (lines 1166–1169). -/
def BEARING_MAP : List (String × ℝ) :=
  [("N", 0), ("NE", 45), ("E", 90), ("SE", 135),
   ("S", 180), ("SW", 225), ("W", 270), ("NW", 315)]

/-- Dictionary lookup `BEARING_MAP.get(key)`. -/
def bearing_map_find (k : String) : Option ℝ :=
  (BEARING_MAP.find? (fun p => p.1 = k)).map Prod.snd

/-- Admin-approval target uid: `int(parts[2])` for a digit-checked
`parts[2]` (line 1614). -/
def adminTarget (data : String) : ℤ :=
  ((((data.splitOn ":").getD 2 "").toNat?).getD 0 : ℕ)

/-- Statement-sequence of the callback branch of `webhook` from the first
dispatch test to the unconditional `return jsonify(ok=True)` of line 1704,
translated if-by-if in source order.  `Sum.inl` is an executed `return`;
`Sum.inr` would be falling through past line 1704 into the `style_selected`
route-computation block of lines 1706–1802 — which no branch does, since
line 1704 returns unconditionally.  Effects listed are those emitted after
the initial `answer_callback_query`. -/
def callbackDispatch (g : Globals) (st : UserState) (data : String)
    (uid owner_id : ℤ) :
    Sum (WebhookResp × List Effect × UserState × Globals) (UserState × Globals) :=
  if data.startsWith "admin:" then
    if uid ≠ owner_id then .inl (.okTrue, [], st, g)
    else
      if (data.splitOn ":").length = 3 ∧
          ((data.splitOn ":").getD 1 "" = "approve" ∨
            (data.splitOn ":").getD 1 "" = "deny") ∧
          (data.splitOn ":").getD 2 "" ≠ "" ∧
          ((data.splitOn ":").getD 2 "").all Char.isDigit then
        if (data.splitOn ":").getD 1 "" = "approve" then
          .inl (.okTrue, [.message "ACCESS_GRANTED", .message "APPROVED_NOTICE"], st,
            { g with
              authorized := g.authorized ++ [adminTarget data],
              pending := g.pending.erase (adminTarget data) })
        else
          .inl (.okTrue, [.message "ACCESS_DENIED", .message "DENIED_NOTICE"], st,
            { g with pending := g.pending.erase (adminTarget data) })
      else .inl (.okTrue, [], st, g)
  else if data = "action:cancel" then
    .inl (.okTrue, [.message "CANCELLED"], reset_state, g)
  else if data = "action:restart" then
    .inl (.okTrue, [.message "RESTARTED"], reset_state, g)
  else if uid ≠ owner_id ∧ uid ∉ g.authorized then
    if uid ∉ g.pending then
      .inl (.okTrue, [.message "ACCESS_REQUEST_TO_OWNER", .message "NOT_AUTH"], st,
        { g with pending := g.pending ++ [uid] })
    else .inl (.okTrue, [.message "NOT_AUTH"], st, g)
  else if data = "action:set_end" then
    .inl (.okTrue, [.message "ASK_END"],
      { st with roundtrip := false, phase := "end" }, g)
  else if data = "action:roundtrip_now" then
    .inl (.okTrue, [.message "ASK_DIRECTION"],
      { st with roundtrip := true, endLoc := none, phase := "direction",
                direction := none }, g)
  else if data.startsWith "dir:" then
    .inl (.okTrue, [.message "DIRECTION_SET", .message "ASK_WAYPOINTS_RT"],
      { st with
        direction := some (if data.drop 4 = "skip" then "NE"
          else if (bearing_map_find (data.drop 4)).isSome then data.drop 4 else "NE"),
        phase := "waypoints" }, g)
  else if data = "action:finish_waypoints" then
    .inl (.okTrue, [.message "ASK_STYLE_TEXT"], { st with phase := "style" }, g)
  else if data.startsWith "style:" then
    if (data.drop 6 = "curvy" ∨ data.drop 6 = "super_curvy") ∧ uid ≠ owner_id then
      .inl (.okTrue, [.message "PREMIUM_LOCKED"], st, g)
    else
      .inl (.okTrue, [.message "PROCESSING"],
        { st with style := some (data.drop 6), phase := "style_selected" }, g)
  else
    .inl (.okTrue, [], st, g)

/-- Common tail of the route-computation block (lines 1758–1802): static map
PNG, the two GPX documents, the rate limit, and the summary message.
`png_ok` abstracts whether `download_static_map` succeeded. -/
def afterRoute (res : MergedTrip) (calls : ℕ) (g : Globals) (uid owner_id : ℤ)
    (now : ℚ) (png_ok : Bool) : WebhookResp × List Effect × UserState × Globals :=
  if uid ≠ owner_id ∧ now - g.last_download uid < 7 * 86400 then
    (.okTrue, [.oracleCalls calls, .message "RATE_LIMIT_MSG"], reset_state, g)
  else
    let g1 := { g with last_download := fun u => if u = uid then now else g.last_download u }
    let pngEffs := if res.coords ≠ [] ∧ png_ok then [Effect.photo] else ([] : List Effect)
    (.okTrue, [.oracleCalls calls] ++ pngEffs ++
      [.document "percorso_turns.gpx", .document "percorso_simple.gpx",
       .message "SUMMARY"], reset_state, g1)

/-- The `style_selected` route-computation block, lines 1706–1802, exactly
as written in the source below the unconditional return of line 1704.  When
its phase guard fails, control falls out of the callback suite and reaches
the final `return jsonify(ok=True)` of line 1879. -/
noncomputable def styleSelectedBlock (st : UserState) (g : Globals)
    (uid owner_id : ℤ) (oracle : ℕ → OracleResp) (nUrls : ℕ) (now : ℚ)
    (png_ok : Bool) : WebhookResp × List Effect × UserState × Globals :=
  if st.phase = "style_selected" then
    let style := st.style.getD "__none__"
    match st.start with
    | none => (.crashed, [], st, g)
    | some start =>
      if st.roundtrip then
        let bearing := (bearing_map_find (st.direction.getD "")).getD 45
        match roundtrip_compute oracle nUrls start.1 start.2 st.waypoints bearing
            style (uid = owner_id) with
        | (.limitsExceeded, calls) =>
          (.okTrue, [.oracleCalls calls, .message "LIMITS_EXCEEDED"], reset_state, g)
        | (.premium, calls) =>
          (.okTrue, [.oracleCalls calls, .message "PREMIUM_LOCKED"], st, g)
        | (.routeNotFound, calls) =>
          (.okTrue, [.oracleCalls calls, .message "ROUTE_NOT_FOUND"], reset_state, g)
        | (.routed res, calls) => afterRoute res calls g uid owner_id now png_ok
      else
        match st.endLoc with
        | none => (.crashed, [], st, g)
        | some e =>
          let locs := Loc.mk start.1 start.2 ::
            (st.waypoints.map (fun w => Loc.mk w.1 w.2) ++ [Loc.mk e.1 e.2])
          if approx_total_km_from_locs locs false > MAX_ROUTE_KM then
            (.okTrue, [.message "LIMITS_EXCEEDED"], reset_state, g)
          else
            match valhalla_route oracle nUrls locs style false (uid = owner_id) with
            | (.error .premiumBlocked, calls) =>
              (.okTrue, [.oracleCalls calls, .message "PREMIUM_LOCKED"], st, g)
            | (.error _, calls) =>
              (.okTrue, [.oracleCalls calls, .message "ROUTE_NOT_FOUND"], reset_state, g)
            | (.ok res, calls) => afterRoute res calls g uid owner_id now png_ok
  else (.okTrue, [], st, g)

/-- Model of the callback-query branch of `webhook` (lines 1596–1802): state
initialization for an unknown uid (lines 1604–1606), the
`answer_callback_query` HTTP call, then the dispatch; the `style_selected`
block runs only if the dispatch falls through line 1704's unconditional
return. -/
noncomputable def callbackHandler (g : Globals) (stOpt : Option UserState)
    (data : String) (uid owner_id : ℤ) (oracle : ℕ → OracleResp) (nUrls : ℕ)
    (now : ℚ) (png_ok : Bool) : WebhookResp × List Effect × UserState × Globals :=
  match callbackDispatch g (stOpt.getD reset_state) data uid owner_id with
  | .inl (resp, effs, st1, g1) => (resp, .answeredCallback :: effs, st1, g1)
  | .inr (st1, g1) =>
    ((styleSelectedBlock st1 g1 uid owner_id oracle nUrls now png_ok).1,
     .answeredCallback ::
       (styleSelectedBlock st1 g1 uid owner_id oracle nUrls now png_ok).2.1,
     (styleSelectedBlock st1 g1 uid owner_id oracle nUrls now png_ok).2.2.1,
     (styleSelectedBlock st1 g1 uid owner_id oracle nUrls now png_ok).2.2.2)

theorem lor_shift_reassemble (result n shift : ℕ) :
    (result ||| (n % 32) <<< shift) ||| (n / 32) <<< (shift + 5) =
      result ||| n <<< shift := by
  have hdiv : n / 32 = n >>> 5 := by
    rw [Nat.shiftRight_eq_div_pow]
  have hmod : n % 32 = n % 2 ^ 5 := by norm_num
  apply Nat.eq_of_testBit_eq
  intro i
  rw [hdiv, hmod]
  simp only [Nat.testBit_lor, Nat.testBit_shiftLeft, Nat.testBit_mod_two_pow,
    Nat.testBit_shiftRight, ge_iff_le]
  by_cases h1 : shift ≤ i
  · by_cases h2 : shift + 5 ≤ i
    · have e1 : ¬ (i - shift < 5) := by omega
      have e2 : 5 + (i - (shift + 5)) = i - shift := by omega
      simp [h1, h2, e1, e2]
    · have e1 : i - shift < 5 := by omega
      have e2 : shift ≤ i ∧ ¬ (shift + 5 ≤ i) := ⟨h1, h2⟩
      simp [e2.1, e2.2, e1]
  · have h2 : ¬ shift + 5 ≤ i := by omega
    simp [h1, h2]

theorem encodeChunks_ne_nil (n : ℕ) : encodeChunks n ≠ [] := by
  rw [encodeChunks]
  split <;> simp

theorem encodeValue_ne_nil (v : ℤ) : encodeValue v ≠ [] := by
  unfold encodeValue
  intro h
  exact encodeChunks_ne_nil (zigzag v) (List.map_eq_nil_iff.mp h)

theorem unzigzag_zigzag (v : ℤ) : unzigzag (zigzag v) = v := by
  unfold unzigzag zigzag
  have hsr : ∀ m : ℕ, m >>> 1 = m / 2 := by
    intro m; rw [Nat.shiftRight_eq_div_pow]
  by_cases hv : v < 0
  · have h1 : v.natAbs ≥ 1 := by omega
    have hodd : (2 * v.natAbs - 1) &&& 1 = 1 := by
      rw [Nat.and_one_is_mod]; omega
    rw [if_pos hv, if_pos hodd, hsr]
    have : (2 * v.natAbs - 1) / 2 = v.natAbs - 1 := by omega
    rw [this]
    omega
  · have heven : ¬ (2 * v.natAbs) &&& 1 = 1 := by
      rw [Nat.and_one_is_mod]; omega
    rw [if_neg hv, if_neg heven, hsr]
    have : 2 * v.natAbs / 2 = v.natAbs := by omega
    rw [this]
    omega

theorem decodeGo_encodeChunks (n : ℕ) :
    ∀ (shift result : ℕ) (rest : List ℕ) (isLat : Bool) (lat lng : ℤ)
      (acc : List (ℚ × ℚ)),
      decodeGo ((encodeChunks n).map (fun b => b + 63) ++ rest)
          isLat shift result lat lng acc =
        decodeAfterValue (result ||| n <<< shift) rest isLat lat lng acc := by
  induction n using Nat.strong_induction_on with
  | _ n ih =>
    intro shift result rest isLat lat lng acc
    rw [encodeChunks]
    by_cases h : n < 32
    · rw [if_pos h]
      simp only [List.map_cons, List.map_nil, List.cons_append, List.nil_append]
      simp only [decodeGo]
      rw [if_pos (show ((n + 63 : ℕ) : ℤ) - 63 < 32 by push_cast; omega)]
      rw [show ((((n + 63 : ℕ) : ℤ) - 63) % 32).toNat = n by omega]
      rfl
    · rw [if_neg h]
      simp only [List.map_cons, List.cons_append]
      simp only [decodeGo]
      rw [if_neg (show ¬ ((32 + n % 32 + 63 : ℕ) : ℤ) - 63 < 32 by push_cast; omega)]
      rw [show ((((32 + n % 32 + 63 : ℕ) : ℤ) - 63) % 32).toNat = n % 32 by omega]
      have hlt : n / 32 < n := Nat.div_lt_self (by omega) (by omega)
      rw [ih (n / 32) hlt (shift + 5) (result ||| (n % 32) <<< shift) rest isLat lat lng acc]
      rw [lor_shift_reassemble]

theorem decodeGo_encodeValue (v : ℤ) (rest : List ℕ) (isLat : Bool)
    (lat lng : ℤ) (acc : List (ℚ × ℚ)) :
    decodeGo (encodeValue v ++ rest) isLat 0 0 lat lng acc =
      decodeAfterValue (zigzag v) rest isLat lat lng acc := by
  unfold encodeValue
  rw [decodeGo_encodeChunks]
  rw [Nat.zero_or, Nat.shiftLeft_zero]

theorem decodeGo_encodeDeltas :
    ∀ (pts : List (ℤ × ℤ)), pts ≠ [] →
      ∀ (plat plng : ℤ) (acc : List (ℚ × ℚ)),
        decodeGo (encodeDeltas pts plat plng) true 0 0 plat plng acc =
          .ok (acc ++ pts.map scalePoint) := by
  intro pts
  induction pts with
  | nil => intro h; exact absurd rfl h
  | cons p rest ih =>
    intro _ plat plng acc
    show decodeGo
        (encodeValue (p.1 - plat) ++ (encodeValue (p.2 - plng) ++ encodeDeltas rest p.1 p.2))
        true 0 0 plat plng acc = _
    rw [decodeGo_encodeValue]
    unfold decodeAfterValue
    rw [if_pos rfl, unzigzag_zigzag]
    have hlat : plat + (p.1 - plat) = p.1 := by ring
    rw [hlat, decodeGo_encodeValue]
    unfold decodeAfterValue
    rw [if_neg (by simp), unzigzag_zigzag]
    have hlng : plng + (p.2 - plng) = p.2 := by ring
    rw [hlng]
    cases rest with
    | nil =>
      show Except.ok (acc ++ [((p.1 : ℚ) / 1000000, (p.2 : ℚ) / 1000000)]) = _
      simp [scalePoint]
    | cons q rest2 =>
      have hne2 : encodeDeltas (q :: rest2) p.1 p.2 ≠ [] := by
        show encodeValue (q.1 - p.1) ++ _ ≠ []
        simp [encodeValue_ne_nil]
      obtain ⟨c, cs, hc⟩ : ∃ c cs, encodeDeltas (q :: rest2) p.1 p.2 = c :: cs := by
        cases h : encodeDeltas (q :: rest2) p.1 p.2 with
        | nil => exact absurd h hne2
        | cons c cs => exact ⟨c, cs, rfl⟩
    -- the pair is complete and characters remain, so the outer loop re-enters
      rw [hc]
      show decodeGo (c :: cs) true 0 0 p.1 p.2
          (acc ++ [((p.1 : ℚ) / 1000000, (p.2 : ℚ) / 1000000)]) = _
      rw [← hc, ih (by simp) p.1 p.2]
      simp [scalePoint]

theorem decode_encode_ok (pts : List (ℤ × ℤ)) :
    decode_polyline6 (encode_polyline6 pts) = .ok (pts.map scalePoint) := by
  cases pts with
  | nil => rfl
  | cons p rest =>
    have hne : encodeDeltas (p :: rest) 0 0 ≠ [] := by
      show encodeValue (p.1 - 0) ++ _ ≠ []
      simp [encodeValue_ne_nil]
    obtain ⟨c, cs, hc⟩ : ∃ c cs, encodeDeltas (p :: rest) 0 0 = c :: cs := by
      cases h : encodeDeltas (p :: rest) 0 0 with
      | nil => exact absurd h hne
      | cons c cs => exact ⟨c, cs, rfl⟩
    show decode_polyline6 (encodeDeltas (p :: rest) 0 0) = _
    rw [hc]
    show decodeGo (c :: cs) true 0 0 0 0 [] = _
    rw [← hc, decodeGo_encodeDeltas (p :: rest) (by simp) 0 0 []]
    simp [scalePoint]

/-- C1: decoding is the exact inverse of the standard polyline encoder at
scale 1e6.  For every coordinate sequence (given in units of 1e-6 degrees,
the integers the encoding transports), `decode_polyline6` applied to the
encoded string recovers exactly the original (latitude, longitude) sequence
in order, each value scaled by 1e-6 — with no off-by-one in bit shifts or
sign recovery. -/
theorem C1_decode_encode_roundtrip (pts : List (ℤ × ℤ)) :
    decode_polyline6 (encode_polyline6 pts) =
      .ok (pts.map (fun p => ((p.1 : ℚ) / 1000000, (p.2 : ℚ) / 1000000))) :=
  decode_encode_ok pts

theorem decode_polyline6_of_ne_nil (s : List ℕ) (h : s ≠ []) :
    decode_polyline6 s = decodeGo s true 0 0 0 0 [] := by
  cases s with
  | nil => exact absurd rfl h
  | cons c cs => rfl

theorem scanValues_decodeGo :
    ∀ (cs : List ℕ) (isLat : Bool) (shift result : ℕ) (lat lng : ℤ)
      (acc : List (ℚ × ℚ)),
      (scanValues cs isLat = true →
        ∃ r, decodeGo cs isLat shift result lat lng acc = .ok r) ∧
      (scanValues cs isLat = false →
        decodeGo cs isLat shift result lat lng acc = .error .indexOutOfBounds) := by
  intro cs
  induction cs with
  | nil =>
    intro isLat shift result lat lng acc
    exact ⟨fun h => by simp [scanValues] at h, fun _ => rfl⟩
  | cons c rest ih =>
    intro isLat shift result lat lng acc
    simp only [scanValues, decodeGo]
    by_cases hb : (c : ℤ) - 63 < 32
    · rw [if_pos hb, if_pos hb]
      cases isLat with
      | true =>
        simpa using ih false 0 0
          (lat + unzigzag (result ||| (((c : ℤ) - 63) % 32).toNat <<< shift)) lng acc
      | false =>
        cases rest with
        | nil => exact ⟨fun _ => ⟨_, rfl⟩, fun h => by simp at h⟩
        | cons d ds =>
          simpa using ih true 0 0 lat
            (lng + unzigzag (result ||| (((c : ℤ) - 63) % 32).toNat <<< shift))
            (acc ++ [((lat : ℚ) / 1000000,
              ((lng + unzigzag (result ||| (((c : ℤ) - 63) % 32).toNat <<< shift) : ℤ) : ℚ)
                / 1000000)])
    · rw [if_neg hb, if_neg hb]
      exact ih isLat (shift + 5) (result ||| (((c : ℤ) - 63) % 32).toNat <<< shift)
        lat lng acc

theorem scanValues_concat_cont (c : ℕ) (hc : ¬ ((c : ℤ) - 63 < 32)) :
    ∀ (s : List ℕ) (isLat : Bool), scanValues (s ++ [c]) isLat = false := by
  intro s
  induction s with
  | nil =>
    intro isLat
    simp only [List.nil_append, scanValues, if_neg hc]
  | cons d ds ih =>
    intro isLat
    simp only [List.cons_append, scanValues, List.append_eq]
    by_cases hd : (d : ℤ) - 63 < 32
    · rw [if_pos hd]
      cases isLat with
      | true => simpa using ih false
      | false =>
        simp only [Bool.false_eq_true, if_false]
        obtain ⟨e, es, hes⟩ : ∃ e es, ds ++ [c] = e :: es := by
          cases ds with
          | nil => exact ⟨c, [], rfl⟩
          | cons e es => exact ⟨e, es ++ [c], rfl⟩
        rw [hes]
        show scanValues (e :: es) true = false
        rw [← hes]
        exact ih true
    · rw [if_neg hd]
      exact ih isLat

/-- C6 (amended): the decoder either processes the entire string — it
succeeds exactly on strings made of complete varint pairs — or fails
whenever the string ends mid-value; in particular it fails whenever the
string ends while a 5-bit group still has its continuation bit set.  The
failure is the uncaught out-of-bounds string access (Python `IndexError`),
not a distinguished `MalformedShape` error: no `MalformedShape` failure
exists in the code. -/
theorem C6_decode_failure_behavior (s : List ℕ) :
    (endsInContinuation s = true → decode_polyline6 s = .error .indexOutOfBounds) ∧
    decode_polyline6 s ≠ .error .malformedShape ∧
    (pairsOk s = true → ∃ r, decode_polyline6 s = .ok r) := by
  refine ⟨?_, ?_, ?_⟩
  · intro h
    cases hs : s.getLast? with
    | none => rw [endsInContinuation, hs] at h; simp at h
    | some c =>
      rw [endsInContinuation, hs] at h
      have hc : ¬ ((c : ℤ) - 63 < 32) := by
        have := of_decide_eq_true h
        omega
      have hne : s ≠ [] := by
        intro e
        rw [e] at hs
        simp at hs
      obtain ⟨t, ht⟩ : ∃ t, s = t ++ [c] := by
        refine ⟨s.dropLast, ?_⟩
        have h1 : s.getLast hne = c := by
          rw [List.getLast?_eq_getLast s hne] at hs
          exact Option.some.inj hs
        rw [← h1]
        exact (List.dropLast_append_getLast hne).symm
      rw [decode_polyline6_of_ne_nil s hne]
      have hscan : scanValues s true = false := by
        rw [ht]
        exact scanValues_concat_cont c hc t true
      exact (scanValues_decodeGo s true 0 0 0 0 []).2 hscan
  · cases s with
    | nil => simp [decode_polyline6]
    | cons c cs =>
      rw [decode_polyline6_of_ne_nil _ (by simp)]
      cases hscan : scanValues (c :: cs) true with
      | false =>
        rw [(scanValues_decodeGo _ true 0 0 0 0 []).2 hscan]
        simp
      | true =>
        obtain ⟨r, hr⟩ := (scanValues_decodeGo _ true 0 0 0 0 []).1 hscan
        rw [hr]
        simp
  · intro h
    cases s with
    | nil => exact ⟨[], rfl⟩
    | cons c cs =>
      rw [decode_polyline6_of_ne_nil _ (by simp)]
      exact (scanValues_decodeGo _ true 0 0 0 0 []).1 (by simpa [pairsOk] using h)

/-- C6 (counterexample): on the single-character string whose only character
carries the continuation bit, the decoder fails with the uncaught
out-of-bounds access, not with `MalformedShape`. -/
theorem C6_counterexample : ¬ claimC6 := by
  intro h
  have h95 := h [95] (by rfl)
  have h2 : decode_polyline6 [95] = .error .indexOutOfBounds := rfl
  rw [h2] at h95
  simp at h95

theorem C6_witness :
    decode_polyline6 [95] = .error .indexOutOfBounds ∧
      ∃ r, decode_polyline6 [63, 63] = .ok r :=
  ⟨(C6_decode_failure_behavior [95]).1 (by rfl),
   (C6_decode_failure_behavior [63, 63]).2.2 (by rfl)⟩

theorem encode_polyline6_ne_nil (p : ℤ × ℤ) (pts : List (ℤ × ℤ)) :
    encode_polyline6 (p :: pts) ≠ [] := by
  show encodeValue (p.1 - 0) ++ _ ≠ []
  simp [encodeValue_ne_nil]

theorem mergeLegsGo_ok :
    ∀ (legs : List Leg) (decoded : List (List (ℚ × ℚ))),
      List.Forall₂ (fun (leg : Leg) dc => decode_polyline6 leg.shape = .ok dc)
        legs decoded →
      ∀ (coords : List (ℚ × ℚ)) (km mn : ℚ) (mans : List ManeuverOut),
        ∃ res : MergedTrip,
          mergeLegsGo legs coords km mn mans = .ok res ∧
            res.coords = coords ++ decoded.flatten := by
  intro legs decoded h
  induction h with
  | nil =>
    intro coords km mn mans
    exact ⟨⟨coords, km, mn, mans⟩, rfl, by simp⟩
  | @cons leg dc legs2 decoded2 hpair hrest ih =>
    intro coords km mn mans
    by_cases hs : leg.shape = []
    · have hdc : dc = [] := by
        rw [hs] at hpair
        exact (Except.ok.inj hpair).symm
      subst hdc
      simp only [mergeLegsGo, if_pos hs]
      obtain ⟨res, h1, h2⟩ := ih coords (km + leg.length) (mn + leg.time / 60)
        (mans ++ processManeuvers coords leg.maneuvers)
      exact ⟨res, h1, by simpa using h2⟩
    · simp only [mergeLegsGo, if_neg hs, hpair, Except.map]
      obtain ⟨res, h1, h2⟩ := ih (coords ++ dc) (km + leg.length) (mn + leg.time / 60)
        (mans ++ processManeuvers (coords ++ dc) leg.maneuvers)
      refine ⟨res, h1, ?_⟩
      rw [h2, List.flatten_cons, List.append_assoc]

theorem mergeLegsGo_coords_extend :
    ∀ (legs : List Leg) (coords : List (ℚ × ℚ)) (km mn : ℚ)
      (mans : List ManeuverOut) (res : MergedTrip),
      mergeLegsGo legs coords km mn mans = .ok res →
      ∃ t, res.coords = coords ++ t := by
  intro legs
  induction legs with
  | nil =>
    intro coords km mn mans res h
    have := Except.ok.inj h
    subst this
    exact ⟨[], by simp⟩
  | cons leg rest ih =>
    intro coords km mn mans res h
    simp only [mergeLegsGo] at h
    split at h
    · exact absurd h (by simp)
    · rename_i coords1 heq
      obtain ⟨t, ht⟩ := ih coords1 _ _ _ res h
      split_ifs at heq with hs
      · have : coords = coords1 := Except.ok.inj heq
        subst this
        exact ⟨t, ht⟩
      · cases hdec : decode_polyline6 leg.shape with
        | error e => rw [hdec] at heq; exact absurd heq (by simp [Except.map])
        | ok dc =>
          rw [hdec] at heq
          have : coords ++ dc = coords1 := by
            simpa [Except.map] using heq
          subst this
          exact ⟨dc ++ t, by rw [ht, List.append_assoc]⟩

theorem mem_processManeuvers (coords : List (ℚ × ℚ)) (ms : List Maneuver)
    (mo : ManeuverOut) (h : mo ∈ processManeuvers coords ms) :
    ∃ m ∈ ms, ∃ hi : m.begin_shape_index.toNat < coords.length,
      0 ≤ m.begin_shape_index ∧
      mo = ⟨m.instruction, (coords.get ⟨m.begin_shape_index.toNat, hi⟩).1,
        (coords.get ⟨m.begin_shape_index.toNat, hi⟩).2⟩ := by
  unfold processManeuvers at h
  rw [List.mem_filterMap] at h
  obtain ⟨m, hm, hsome⟩ := h
  by_cases hg : 0 ≤ m.begin_shape_index ∧ m.begin_shape_index.toNat < coords.length
  · rw [dif_pos hg] at hsome
    exact ⟨m, hm, hg.2, hg.1, (Option.some.inj hsome).symm⟩
  · rw [dif_neg hg] at hsome
    exact absurd hsome (by simp)

theorem mergeLegsGo_maneuvers_resolved :
    ∀ (legs : List Leg) (coords : List (ℚ × ℚ)) (km mn : ℚ)
      (mans : List ManeuverOut) (res : MergedTrip),
      mergeLegsGo legs coords km mn mans = .ok res →
      ∀ mo ∈ res.maneuvers,
        mo ∈ mans ∨
          ∃ (i : ℕ) (hi : i < res.coords.length),
            (mo.lat, mo.lon) = res.coords.get ⟨i, hi⟩ ∧
            ∃ leg ∈ legs, ∃ m ∈ leg.maneuvers,
              m.instruction = mo.instruction ∧ m.begin_shape_index = (i : ℤ) := by
  intro legs
  induction legs with
  | nil =>
    intro coords km mn mans res h mo hmo
    have := Except.ok.inj h
    subst this
    exact Or.inl hmo
  | cons leg rest ih =>
    intro coords km mn mans res h mo hmo
    obtain ⟨rc, rkm, rmn, rmans⟩ := res
    simp only [mergeLegsGo] at h
    split at h
    · exact absurd h (by simp)
    · rename_i coords1 heq
      obtain ⟨t, ht⟩ : ∃ t, rc = coords1 ++ t :=
        mergeLegsGo_coords_extend rest coords1 _ _ _ ⟨rc, rkm, rmn, rmans⟩ h
      subst ht
      rcases ih coords1 _ _ _ ⟨coords1 ++ t, rkm, rmn, rmans⟩ h mo hmo with hin | hres
      · rw [List.mem_append] at hin
        rcases hin with hin | hin
        · exact Or.inl hin
        · right
          obtain ⟨m, hm, hlt, hnn, hmo2⟩ := mem_processManeuvers coords1 leg.maneuvers mo hin
          have hlen : m.begin_shape_index.toNat <
              ((⟨coords1 ++ t, rkm, rmn, rmans⟩ : MergedTrip)).coords.length := by
            show m.begin_shape_index.toNat < (coords1 ++ t).length
            rw [List.length_append]
            omega
          refine ⟨m.begin_shape_index.toNat, hlen, ?_, leg,
            List.mem_cons_self leg rest, m, hm, ?_, ?_⟩
          · show (mo.lat, mo.lon) = (coords1 ++ t).get ⟨m.begin_shape_index.toNat, hlen⟩
            rw [List.get_append _ hlt, hmo2]
          · rw [hmo2]
          · omega
      · right
        obtain ⟨i, hi, h1, leg2, hleg2, hrest2⟩ := hres
        exact ⟨i, hi, h1, leg2, List.mem_cons_of_mem leg hleg2, hrest2⟩

theorem mergeLegsGo_nil (coords : List (ℚ × ℚ)) (km mn : ℚ)
    (mans : List ManeuverOut) :
    mergeLegsGo [] coords km mn mans = .ok ⟨coords, km, mn, mans⟩ := rfl

theorem mergeLegsGo_cons_decode (leg : Leg) (rest : List Leg)
    (dc : List (ℚ × ℚ)) (hs : leg.shape ≠ [])
    (hdec : decode_polyline6 leg.shape = .ok dc)
    (coords : List (ℚ × ℚ)) (km mn : ℚ) (mans : List ManeuverOut) :
    mergeLegsGo (leg :: rest) coords km mn mans =
      mergeLegsGo rest (coords ++ dc) (km + leg.length) (mn + leg.time / 60)
        (mans ++ processManeuvers (coords ++ dc) leg.maneuvers) := by
  simp only [mergeLegsGo, if_neg hs, hdec, Except.map]

theorem mergeLegs_ex_C3 :
    mergeLegs [exLeg1, exLeg2] =
      .ok ⟨[(0, 0), (0, 1), (0, 2), (0, 2), (0, 3)], 0, 0, []⟩ := by
  have h1 : decode_polyline6 exLeg1.shape = .ok [(0, 0), (0, 1), (0, 2)] := by
    show decode_polyline6 (encode_polyline6 [(0, 0), (0, 1000000), (0, 2000000)]) = _
    rw [decode_encode_ok]
    norm_num [scalePoint]
  have h2 : decode_polyline6 exLeg2.shape = .ok [(0, 2), (0, 3)] := by
    show decode_polyline6 (encode_polyline6 [(0, 2000000), (0, 3000000)]) = _
    rw [decode_encode_ok]
    norm_num [scalePoint]
  show mergeLegsGo [exLeg1, exLeg2] [] 0 0 [] = _
  rw [mergeLegsGo_cons_decode exLeg1 _ _ (encode_polyline6_ne_nil _ _) h1,
    mergeLegsGo_cons_decode exLeg2 _ _ (encode_polyline6_ne_nil _ _) h2,
    mergeLegsGo_nil]
  rw [show exLeg1.maneuvers = [] from rfl, show exLeg2.maneuvers = [] from rfl,
    show exLeg1.length = 0 from rfl, show exLeg2.length = 0 from rfl,
    show exLeg1.time = 0 from rfl, show exLeg2.time = 0 from rfl]
  norm_num [processManeuvers]

theorem mergeLegs_ex_C5 :
    mergeLegs [exLeg1, exLeg2m] =
      .ok ⟨[(0, 0), (0, 1), (0, 2), (0, 2), (0, 3)], 0, 0,
        [⟨"turn right", 0, 0⟩]⟩ := by
  have h1 : decode_polyline6 exLeg1.shape = .ok [(0, 0), (0, 1), (0, 2)] := by
    show decode_polyline6 (encode_polyline6 [(0, 0), (0, 1000000), (0, 2000000)]) = _
    rw [decode_encode_ok]
    norm_num [scalePoint]
  have h2 : decode_polyline6 exLeg2m.shape = .ok [(0, 2), (0, 3)] := by
    show decode_polyline6 (encode_polyline6 [(0, 2000000), (0, 3000000)]) = _
    rw [decode_encode_ok]
    norm_num [scalePoint]
  show mergeLegsGo [exLeg1, exLeg2m] [] 0 0 [] = _
  rw [mergeLegsGo_cons_decode exLeg1 _ _ (encode_polyline6_ne_nil _ _) h1,
    mergeLegsGo_cons_decode exLeg2m _ _ (encode_polyline6_ne_nil _ _) h2,
    mergeLegsGo_nil]
  rw [show exLeg1.maneuvers = [] from rfl,
    show exLeg2m.maneuvers = [⟨"turn right", 0⟩] from rfl,
    show exLeg1.length = 0 from rfl, show exLeg2m.length = 0 from rfl,
    show exLeg1.time = 0 from rfl, show exLeg2m.time = 0 from rfl]
  norm_num [processManeuvers, List.filterMap]

/-- C3 (counterexample): on the claim's own example — legs whose shapes
decode to [(0,0),(0,1),(0,2)] and [(0,2),(0,3)] — the merged coordinate list
is not the de-duplicated [(0,0),(0,1),(0,2),(0,3)]: the code keeps the
duplicated junction point. -/
theorem C3_counterexample : ¬ claimC3 := by
  intro h
  unfold claimC3 at h
  rw [mergeLegs_ex_C3] at h
  norm_num [Except.map] at h

/-- C3 (amended): merging a multi-leg trip performs no junction
de-duplication at all — when every leg shape decodes, the merged coordinate
list is the plain concatenation of the decoded leg shapes, so the claim's
example yields [(0,0),(0,1),(0,2),(0,2),(0,3)] of length 5. -/
theorem C3_merge_concatenates (legs : List Leg) (decoded : List (List (ℚ × ℚ)))
    (h : List.Forall₂ (fun (leg : Leg) dc => decode_polyline6 leg.shape = .ok dc)
      legs decoded) :
    ∃ res : MergedTrip, mergeLegs legs = .ok res ∧ res.coords = decoded.flatten := by
  obtain ⟨res, h1, h2⟩ := mergeLegsGo_ok legs decoded h [] 0 0 []
  exact ⟨res, h1, by simpa using h2⟩

theorem decode_exShape1 : decode_polyline6 exLeg1.shape = .ok [(0, 0), (0, 1), (0, 2)] := by
  show decode_polyline6 (encode_polyline6 [(0, 0), (0, 1000000), (0, 2000000)]) = _
  rw [decode_encode_ok]
  norm_num [scalePoint]

theorem decode_exShape2 : decode_polyline6 exLeg2.shape = .ok [(0, 2), (0, 3)] := by
  show decode_polyline6 (encode_polyline6 [(0, 2000000), (0, 3000000)]) = _
  rw [decode_encode_ok]
  norm_num [scalePoint]

theorem C3_witness :
    ∃ res : MergedTrip, mergeLegs [exLeg1, exLeg2] = .ok res ∧
      res.coords = [[((0 : ℚ), (0 : ℚ)), (0, 1), (0, 2)], [(0, 2), (0, 3)]].flatten :=
  C3_merge_concatenates [exLeg1, exLeg2] [[(0, 0), (0, 1), (0, 2)], [(0, 2), (0, 3)]]
    (List.Forall₂.cons decode_exShape1 (List.Forall₂.cons decode_exShape2 List.Forall₂.nil))

/-- C5 (counterexample): on a two-leg trip whose first leg contributes three
coordinates and whose second leg carries a maneuver with leg-local begin
index 0, the maneuver is not translated to global index 3 (the point (0,2)):
the code resolves the raw index 0 against the merged list, yielding the first
leg's first point (0,0). -/
theorem C5_counterexample : ¬ claimC5 := by
  intro h
  unfold claimC5 at h
  rw [mergeLegs_ex_C5] at h
  norm_num [Except.map, ManeuverOut.mk.injEq] at h

/-- C5 (amended): each maneuver's leg-local begin-shape-index is used
directly — without adding the running total of previously merged
coordinates — as an index into the coordinates merged so far; indices out of
range of the coordinates merged so far are dropped without failure; every
retained maneuver resolves to the GeoPoint at its untranslated index in the
merged sequence. -/
theorem C5_maneuvers_not_rebased (legs : List Leg) (res : MergedTrip)
    (h : mergeLegs legs = .ok res) :
    ∀ mo ∈ res.maneuvers,
      ∃ (i : ℕ) (hi : i < res.coords.length),
        (mo.lat, mo.lon) = res.coords.get ⟨i, hi⟩ ∧
        ∃ leg ∈ legs, ∃ m ∈ leg.maneuvers,
          m.instruction = mo.instruction ∧ m.begin_shape_index = (i : ℤ) := by
  intro mo hmo
  rcases mergeLegsGo_maneuvers_resolved legs [] 0 0 [] res h mo hmo with hL | hR
  · simp at hL
  · exact hR

theorem C5_witness :
    ∃ (i : ℕ) (hi : i < ([((0 : ℚ), (0 : ℚ)), (0, 1), (0, 2), (0, 2), (0, 3)]).length),
      (((0 : ℚ), (0 : ℚ))) = [((0 : ℚ), (0 : ℚ)), (0, 1), (0, 2), (0, 2), (0, 3)].get ⟨i, hi⟩ ∧
      ∃ leg ∈ [exLeg1, exLeg2m], ∃ m ∈ leg.maneuvers,
        m.instruction = "turn right" ∧ m.begin_shape_index = (i : ℤ) :=
  C5_maneuvers_not_rebased [exLeg1, exLeg2m]
    ⟨[(0, 0), (0, 1), (0, 2), (0, 2), (0, 3)], 0, 0, [⟨"turn right", 0, 0⟩]⟩
    mergeLegs_ex_C5 ⟨"turn right", 0, 0⟩ (by simp)

theorem atan2_zero_of_nonneg (x : ℝ) (hx : 0 ≤ x) : atan2 0 x = 0 := by
  unfold atan2
  rcases lt_or_eq_of_le hx with h | h
  · rw [if_pos h, zero_div, Real.arctan_zero]
  · rw [if_neg (by rw [← h]; exact lt_irrefl 0), if_neg (by rw [← h]; exact lt_irrefl 0),
      if_neg (lt_irrefl 0), if_neg (lt_irrefl 0)]

theorem atan2_of_pos (y x : ℝ) (hx : 0 < x) : atan2 y x = Real.arctan (y / x) := by
  unfold atan2
  rw [if_pos hx]

/-- C7: geodesic projection at distance zero is the identity — for every
origin with latitude in [−90, 90] and every bearing,
`offset_point lat lon 0 bearing = (lat, lon)` exactly (the real-arithmetic
model of the float computation). -/
theorem C7_offset_point_zero_distance (lat lon bearing : ℝ)
    (h1 : -90 ≤ lat) (h2 : lat ≤ 90) :
    offset_point lat lon 0 bearing = (lat, lon) := by
  have hpi := Real.pi_pos
  unfold offset_point radians
  simp only [zero_div, Real.sin_zero, Real.cos_zero, mul_one, mul_zero, zero_mul,
    add_zero, sub_zero, zero_sub]
  have hl1 : -(Real.pi / 2) ≤ lat * Real.pi / 180 := by
    have h : 0 ≤ (lat + 90) * Real.pi := mul_nonneg (by linarith) hpi.le
    nlinarith
  have hl2 : lat * Real.pi / 180 ≤ Real.pi / 2 := by
    have h : 0 ≤ (90 - lat) * Real.pi := mul_nonneg (by linarith) hpi.le
    nlinarith
  rw [Real.arcsin_sin hl1 hl2]
  have hx : (0 : ℝ) ≤ 1 - Real.sin (lat * Real.pi / 180) * Real.sin (lat * Real.pi / 180) := by
    have hs := Real.sin_sq_add_cos_sq (lat * Real.pi / 180)
    nlinarith [sq_nonneg (Real.cos (lat * Real.pi / 180))]
  rw [atan2_zero_of_nonneg _ hx, add_zero]
  have hpne : Real.pi ≠ 0 := ne_of_gt hpi
  rw [Prod.mk.injEq]
  constructor <;> field_simp

theorem C7_witness : offset_point 0 0 0 0 = (0, 0) :=
  C7_offset_point_zero_distance 0 0 0 (by norm_num) (by norm_num)

theorem tuneGo_wps_locs (slat slon : ℝ) (w : ℝ × ℝ) (ws : List (ℝ × ℝ))
    (dmin dmax bearing : ℝ) :
    ∀ (cands : List ℝ) (best : Option (ℝ × ℝ × List Loc × ℝ)),
      (best = none → cands ≠ []) →
      (∀ q, best = some q →
        q.2.2.1 = Loc.mk slat slon :: (w :: ws).map (fun p => ⟨p.1, p.2⟩)) →
      ∃ s b2 ap, tuneGo slat slon (w :: ws) dmin dmax bearing cands best =
        some (s, b2, Loc.mk slat slon :: (w :: ws).map (fun p => ⟨p.1, p.2⟩), ap) := by
  intro cands
  induction cands with
  | nil =>
    intro best h1 h2
    cases best with
    | none => exact absurd rfl (h1 rfl)
    | some q =>
      obtain ⟨s, b2, ls, ap⟩ := q
      have := h2 (s, b2, ls, ap) rfl
      simp only at this
      subst this
      exact ⟨s, b2, ap, rfl⟩
  | cons base rest ih =>
    intro best h1 h2
    simp only [tuneGo]
    set L := Loc.mk slat slon :: (w :: ws).map (fun p => (⟨p.1, p.2⟩ : Loc)) with hL
    set approx := approx_total_km_from_locs L true with happrox
    set score : ℝ := if dmin ≤ approx ∧ approx ≤ dmax then 1000
      else if approx < dmin then -(dmin - approx) else -(approx - dmax) with hscore
    have hbest1 : ∀ q, (match best with
        | none => some (score, base, L, approx)
        | some b => if b.1 < score then some (score, base, L, approx) else some b) =
          some q → q.2.2.1 = L := by
      intro q hq
      cases best with
      | none =>
        simp only [Option.some.injEq] at hq
        rw [← hq]
      | some b =>
        have hb := h2 b rfl
        simp only at hq
        split at hq <;> rw [← Option.some.inj hq] <;> first | rfl | exact hb
    by_cases hband : dmin ≤ approx ∧ approx ≤ dmax
    · rw [if_pos hband]
      cases best with
      | none => exact ⟨score, base, approx, rfl⟩
      | some b =>
        simp only
        split
        · exact ⟨score, base, approx, rfl⟩
        · obtain ⟨s, b2, ls, ap⟩ := b
          have := h2 (s, b2, ls, ap) rfl
          simp only at this
          subst this
          exact ⟨s, b2, ap, rfl⟩
    · rw [if_neg hband]
      obtain ⟨q1, hq1⟩ : ∃ q1, (match best with
          | none => some (score, base, L, approx)
          | some b => if b.1 < score then some (score, base, L, approx) else some b) =
            some q1 := by
        cases best with
        | none => exact ⟨_, rfl⟩
        | some b =>
          simp only
          split
          · exact ⟨_, rfl⟩
          · exact ⟨b, rfl⟩
      rw [hq1]
      exact ih (some q1) (fun h => by simp at h) (fun q hq => by
        rw [← Option.some.inj hq]
        exact hbest1 q1 hq1)

theorem tune_locs_of_wps (slat slon : ℝ) (w : ℝ × ℝ) (ws : List (ℝ × ℝ))
    (dmin dmax bearing : ℝ) :
    (tune_roundtrip_length slat slon (w :: ws) dmin dmax bearing).1 =
      Loc.mk slat slon :: (w :: ws).map (fun p => ⟨p.1, p.2⟩) := by
  unfold tune_roundtrip_length
  obtain ⟨s, b2, ap, heq⟩ := tuneGo_wps_locs slat slon w ws dmin dmax bearing
    [18, 20, 22] none (fun _ => by simp) (fun q hq => by simp at hq)
  simp only
  rw [heq]

theorem normDeg_eq_self (d : ℝ) (h1 : 0 ≤ d) (h2 : d < 360) : normDeg d = d := by
  unfold normDeg pymod
  have hf : ⌊d / 360⌋ = 0 := by
    rw [Int.floor_eq_zero_iff]
    constructor
    · positivity
    · rw [div_lt_one (by norm_num)]; linarith
  rw [hf]
  simp

/-- C4 (counterexample): at start (0,0) with base bearing 40° and the two
user waypoints (10°, 0°) and (10°, 90°) — whose initial bearings from the
start are exactly 0° = 40°−40° and 80° = 40°+40° — the tuner returns the
three locations [start, w1, w2] unchanged: no middle slot is synthesized and
no four-element slot assignment exists. -/
theorem C4_counterexample : ¬ claimC4 := by
  intro h
  have hpi := Real.pi_pos
  have hsin : 0 < Real.sin (10 * Real.pi / 180) := by
    apply Real.sin_pos_of_pos_of_lt_pi
    · positivity
    · nlinarith
  have hb1 : initialBearing 0 0 10 0 = normDeg (40 - 40) := by
    unfold initialBearing radians
    simp only [zero_mul, zero_div, sub_zero, zero_sub, neg_zero, Real.sin_zero,
      Real.cos_zero, one_mul, mul_zero, mul_one]
    rw [atan2_zero_of_nonneg _ hsin.le]
    rw [show (40 : ℝ) - 40 = 0 by norm_num, normDeg_eq_self 0 le_rfl (by norm_num)]
    simp
  have hb2 : initialBearing 0 0 10 90 = normDeg (40 + 40) := by
    unfold initialBearing radians
    simp only [zero_mul, zero_div, sub_zero, zero_sub, neg_zero, Real.sin_zero,
      Real.cos_zero, one_mul, mul_zero, mul_one]
    rw [show (90 : ℝ) * Real.pi / 180 = Real.pi / 2 by ring, Real.sin_pi_div_two,
      one_mul]
    rw [atan2_of_pos _ _ hsin]
    have hth : Real.cos (10 * Real.pi / 180) / Real.sin (10 * Real.pi / 180) =
        Real.tan (Real.pi / 2 - 10 * Real.pi / 180) := by
      rw [Real.tan_eq_sin_div_cos, Real.sin_pi_div_two_sub, Real.cos_pi_div_two_sub]
    rw [hth, Real.arctan_tan (by nlinarith) (by nlinarith)]
    rw [show (Real.pi / 2 - 10 * Real.pi / 180) * 180 / Real.pi =
        Real.pi * 80 / Real.pi by ring]
    rw [mul_comm Real.pi 80, mul_div_assoc, div_self (ne_of_gt hpi), mul_one]
    rw [if_neg (by norm_num), show (40 : ℝ) + 40 = 80 by norm_num,
      normDeg_eq_self 80 (by norm_num) (by norm_num)]
  obtain ⟨r, hr⟩ := h 0 0 40 70 80 (10, 0) (10, 90) hb1 hb2
  rw [tune_locs_of_wps] at hr
  have hlen := congrArg List.length hr
  simp at hlen

/-- C4 (amended): the waypoint synthesizer uses no angular slots at all.
With user waypoints present, `tune_roundtrip_length` returns exactly
[start] ++ waypoints, synthesizing nothing; with no user waypoints,
`seed_roundtrip_locations` synthesizes exactly two points, at bearings
(base+90°) mod 360 and (base+180°) mod 360, at distances r and 0.9·r. -/
theorem C4_no_angular_slots :
    (∀ (slat slon : ℝ) (w : ℝ × ℝ) (ws : List (ℝ × ℝ)) (dmin dmax bearing : ℝ),
      (tune_roundtrip_length slat slon (w :: ws) dmin dmax bearing).1 =
        Loc.mk slat slon :: (w :: ws).map (fun p => ⟨p.1, p.2⟩)) ∧
    (∀ slat slon base bearing : ℝ,
      seed_roundtrip_locations slat slon base bearing =
        [⟨(offset_point slat slon base (pymod (bearing + 90) 360)).1,
          (offset_point slat slon base (pymod (bearing + 90) 360)).2⟩,
         ⟨(offset_point slat slon (base * 0.9) (pymod (bearing + 180) 360)).1,
          (offset_point slat slon (base * 0.9) (pymod (bearing + 180) 360)).2⟩]) :=
  ⟨tune_locs_of_wps, fun _ _ _ _ => rfl⟩

/-- C8: for every round-trip oracle request built from a non-empty location
list, the WaypointSet actually submitted satisfies the closed-loop
invariant: length at least 2, first and last coordinates numerically equal
(the start is appended as the final location), intermediate locations
unchanged. -/
theorem C8_closed_loop (locations : List Loc) (s : Loc) (rest : List Loc)
    (h : locations = s :: rest) :
    ∃ l, valhalla_locs locations true = some l ∧
      2 ≤ l.length ∧ l.head? = some s ∧ l.getLast? = some ⟨s.lat, s.lon⟩ ∧
      l.dropLast = locations := by
  subst h
  refine ⟨(s :: rest) ++ [⟨s.lat, s.lon⟩], ?_, ?_, ?_, ?_, ?_⟩
  · rfl
  · simp
  · rfl
  · exact List.getLast?_concat _
  · exact List.dropLast_concat

theorem C8_witness :
    ∃ l, valhalla_locs [⟨0, 0⟩] true = some l ∧
      2 ≤ l.length ∧ l.head? = some ⟨0, 0⟩ ∧
      l.getLast? = some ⟨(Loc.mk 0 0).lat, (Loc.mk 0 0).lon⟩ ∧
      l.dropLast = [⟨0, 0⟩] :=
  C8_closed_loop [⟨0, 0⟩] ⟨0, 0⟩ [] rfl

theorem mergeLegsGo_cons_skip (leg : Leg) (h : leg.shape = []) (rest : List Leg)
    (coords : List (ℚ × ℚ)) (km mn : ℚ) (mans : List ManeuverOut) :
    mergeLegsGo (leg :: rest) coords km mn mans =
      mergeLegsGo rest coords (km + leg.length) (mn + leg.time / 60)
        (mans ++ processManeuvers coords leg.maneuvers) := by
  simp only [mergeLegsGo, if_pos h]

theorem round1_95 : round1 95 = 95 := by
  unfold round1
  rw [show ⌊(95 : ℚ) * 10 + 1 / 2⌋ = 950 from by
    rw [Int.floor_eq_iff] <;> norm_num]
  norm_num

theorem round1_0 : round1 0 = 0 := by
  unfold round1
  rw [show ⌊(0 : ℚ) * 10 + 1 / 2⌋ = 0 from by
    rw [Int.floor_eq_iff] <;> norm_num]
  norm_num

theorem haversine_km_self (a : ℝ × ℝ) : haversine_km a a = 0 := by
  unfold haversine_km radians
  simp only [sub_self, zero_mul, zero_div, Real.sin_zero, mul_zero,
    ne_eq, OfNat.ofNat_ne_zero, not_false_eq_true, zero_pow, add_zero,
    Real.sqrt_zero, sub_zero, Real.sqrt_one]
  rw [atan2_zero_of_nonneg 1 zero_le_one]
  ring

theorem approx_three_zeros :
    approx_total_km_from_locs [⟨0, 0⟩, ⟨0, 0⟩, ⟨0, 0⟩] true = 0 := by
  unfold approx_total_km_from_locs
  simp [List.getLast, haversine_km_self]

theorem mergeLegs_stub (d : ℚ) : mergeLegs [stubLeg d] = .ok ⟨[], d, 0, []⟩ := by
  show mergeLegsGo [stubLeg d] [] 0 0 [] = _
  rw [mergeLegsGo_cons_skip (stubLeg d) rfl, mergeLegsGo_nil]
  norm_num [stubLeg, processManeuvers]

theorem roundtrip_compute_stub :
    roundtrip_compute stubOracle 1 0 0 [(0, 0), (0, 0)] 45 "standard" false =
      (.routed ⟨[], 95, 0, []⟩, 1) := by
  unfold roundtrip_compute
  rw [tune_locs_of_wps]
  simp only [List.map_cons, List.map_nil]
  rw [approx_three_zeros]
  rw [if_neg (by norm_num [MAX_ROUTE_KM])]
  have hval : valhalla_route stubOracle 1
      [Loc.mk 0 0, ⟨(0 : ℝ), (0 : ℝ)⟩, ⟨(0 : ℝ), (0 : ℝ)⟩] "standard" true false =
      (.ok ⟨[], 95, 0, []⟩, 1) := by
    unfold valhalla_route valhalla_locs try_urls post_valhalla
    rw [show stubOracle 0 = .okTrip [stubLeg 95] from rfl]
    simp only [build_motorcycle_costing]
    rw [mergeLegs_stub]
    norm_num [round1_95, round1_0]
  rw [hval]

/-- C2 (counterexample): with the stub oracle returning 95, 82, 76 km, the
round-trip computation at start (0,0) with waypoints [(0,0),(0,0)] makes
exactly 1 oracle call (not 3) and returns the first response's 95 km trip
(not the third response's 76 km). -/
theorem C2_counterexample : ¬ claimC2 := by
  intro h
  obtain ⟨hcalls, -⟩ := h 0 0 [(0, 0), (0, 0)] 45
  rw [roundtrip_compute_stub] at hcalls
  norm_num at hcalls

/-- C2 (amended): the correction engine contains no oracle-feedback shrink
loop.  Radius tuning is a pure haversine scan over a fixed candidate list
performed before any oracle contact, and the round-trip computation invokes
the oracle at most once whenever the oracle's first response is a successful
trip — zero times when the approximate-length limit check aborts the run —
regardless of the distances returned and of the band [70, 80]. -/
theorem C2_no_shrink_loop (slat slon bearing : ℝ) (wps : List (ℝ × ℝ))
    (style : String) (is_owner : Bool) (nUrls : ℕ) (oracle : ℕ → OracleResp)
    (legs : List Leg) (hfirst : oracle 0 = .okTrip legs) :
    (roundtrip_compute oracle nUrls slat slon wps bearing style is_owner).2 ≤ 1 := by
  unfold roundtrip_compute
  set locs := (tune_roundtrip_length slat slon wps RT_TARGET_MIN RT_TARGET_MAX bearing).1
  by_cases hlim : approx_total_km_from_locs locs true > MAX_ROUTE_KM
  · rw [if_pos hlim]
    exact Nat.zero_le 1
  · rw [if_neg hlim]
    have hv : (valhalla_route oracle nUrls locs style true is_owner).2 ≤ 1 := by
      unfold valhalla_route
      by_cases hn : nUrls = 0
      · rw [if_pos hn]
        exact Nat.zero_le 1
      · rw [if_neg hn]
        cases hl : valhalla_locs locs true with
        | none => exact Nat.zero_le 1
        | some l =>
          simp only
          cases hc : build_motorcycle_costing style is_owner with
          | none => exact Nat.zero_le 1
          | some c =>
            simp only
            obtain ⟨u, hu⟩ : ∃ u, nUrls = u + 1 := ⟨nUrls - 1, by omega⟩
            subst hu
            have htry : try_urls oracle (u + 1) 0 = (some legs, 1) := by
              unfold try_urls post_valhalla
              rw [hfirst]
            rw [htry]
            dsimp only
            cases hm : mergeLegs legs with
            | error e => exact Nat.le_refl 1
            | ok res => exact Nat.le_refl 1
    rcases hres : valhalla_route oracle nUrls locs style true is_owner with ⟨out, calls⟩
    rw [hres] at hv
    cases out with
    | error e => cases e <;> simpa using hv
    | ok res => simpa using hv

theorem C2_witness :
    (roundtrip_compute stubOracle 1 0 0 [(0, 0), (0, 0)] 45 "standard" false).2 ≤ 1 :=
  C2_no_shrink_loop 0 0 45 [(0, 0), (0, 0)] "standard" false 1 stubOracle
    [stubLeg 95] rfl

/-- C9: linear interpolation of the elevation profile — known samples 100 m
at index 0 and 140 m at index 4 with indices 1–3 unknown interpolate to 110,
120 and 130 m. -/
theorem C9_interpolation_example :
    interpolate_elevations [some 100, none, none, none, some 140] =
      [some 100, some 110, some 120, some 130, some 140] := by
  norm_num [interpolate_elevations, prevKnown, nextKnown, List.enum, List.enumFrom]

theorem callbackDispatch_messages_only (g : Globals) (st : UserState)
    (data : String) (uid owner_id : ℤ) :
    ∃ effs st1 g1,
      callbackDispatch g st data uid owner_id = .inl (.okTrue, effs, st1, g1) ∧
      ∀ e ∈ effs, ∃ t, e = .message t := by
  unfold callbackDispatch
  by_cases c1 : data.startsWith "admin:" = true
  · rw [if_pos c1]
    by_cases c2 : uid ≠ owner_id
    · rw [if_pos c2]
      exact ⟨_, _, _, rfl, fun e he => absurd he (List.not_mem_nil e)⟩
    · rw [if_neg c2]
      by_cases c3 : (data.splitOn ":").length = 3 ∧
          ((data.splitOn ":").getD 1 "" = "approve" ∨
            (data.splitOn ":").getD 1 "" = "deny") ∧
          (data.splitOn ":").getD 2 "" ≠ "" ∧
          ((data.splitOn ":").getD 2 "").all Char.isDigit = true
      · rw [if_pos c3]
        by_cases c4 : (data.splitOn ":").getD 1 "" = "approve"
        · rw [if_pos c4]
          exact ⟨_, _, _, rfl, fun e he => by fin_cases he <;> exact ⟨_, rfl⟩⟩
        · rw [if_neg c4]
          exact ⟨_, _, _, rfl, fun e he => by fin_cases he <;> exact ⟨_, rfl⟩⟩
      · rw [if_neg c3]
        exact ⟨_, _, _, rfl, fun e he => absurd he (List.not_mem_nil e)⟩
  · rw [if_neg c1]
    by_cases c5 : data = "action:cancel"
    · rw [if_pos c5]
      exact ⟨_, _, _, rfl, fun e he => by fin_cases he <;> exact ⟨_, rfl⟩⟩
    · rw [if_neg c5]
      by_cases c6 : data = "action:restart"
      · rw [if_pos c6]
        exact ⟨_, _, _, rfl, fun e he => by fin_cases he <;> exact ⟨_, rfl⟩⟩
      · rw [if_neg c6]
        by_cases c7 : uid ≠ owner_id ∧ uid ∉ g.authorized
        · rw [if_pos c7]
          by_cases c8 : uid ∉ g.pending
          · rw [if_pos c8]
            exact ⟨_, _, _, rfl, fun e he => by fin_cases he <;> exact ⟨_, rfl⟩⟩
          · rw [if_neg c8]
            exact ⟨_, _, _, rfl, fun e he => by fin_cases he <;> exact ⟨_, rfl⟩⟩
        · rw [if_neg c7]
          by_cases c9 : data = "action:set_end"
          · rw [if_pos c9]
            exact ⟨_, _, _, rfl, fun e he => by fin_cases he <;> exact ⟨_, rfl⟩⟩
          · rw [if_neg c9]
            by_cases c10 : data = "action:roundtrip_now"
            · rw [if_pos c10]
              exact ⟨_, _, _, rfl, fun e he => by fin_cases he <;> exact ⟨_, rfl⟩⟩
            · rw [if_neg c10]
              by_cases c11 : data.startsWith "dir:" = true
              · rw [if_pos c11]
                exact ⟨_, _, _, rfl, fun e he => by fin_cases he <;> exact ⟨_, rfl⟩⟩
              · rw [if_neg c11]
                by_cases c12 : data = "action:finish_waypoints"
                · rw [if_pos c12]
                  exact ⟨_, _, _, rfl, fun e he => by fin_cases he <;> exact ⟨_, rfl⟩⟩
                · rw [if_neg c12]
                  by_cases c13 : data.startsWith "style:" = true
                  · rw [if_pos c13]
                    by_cases c14 : (data.drop 6 = "curvy" ∨
                        data.drop 6 = "super_curvy") ∧ uid ≠ owner_id
                    · rw [if_pos c14]
                      exact ⟨_, _, _, rfl, fun e he => by
                        fin_cases he <;> exact ⟨_, rfl⟩⟩
                    · rw [if_neg c14]
                      exact ⟨_, _, _, rfl, fun e he => by
                        fin_cases he <;> exact ⟨_, rfl⟩⟩
                  · rw [if_neg c13]
                    exact ⟨_, _, _, rfl, fun e he => absurd he (List.not_mem_nil e)⟩

/-- C10: in the webhook's callback-query branch, the unconditional
`return jsonify(ok=True)` of line 1704 makes the whole subsequent
route-computation block (the `style_selected` logic of lines 1706–1802,
including the Valhalla call, rate limit, PNG map and the two GPX documents)
unreachable: for every callback-query update, over all user/global states,
oracle behaviors and configurations, the handler emits no photo, no
document and no oracle call. -/
theorem C10_callback_unreachable_route
    (g : Globals) (stOpt : Option UserState) (data : String) (uid owner_id : ℤ)
    (oracle : ℕ → OracleResp) (nUrls : ℕ) (now : ℚ) (png_ok : Bool) :
    (callbackHandler g stOpt data uid owner_id oracle nUrls
        now png_ok).2.1.filter Effect.isRouteArtifact = [] := by
  obtain ⟨effs, st1, g1, hd, hm⟩ :=
    callbackDispatch_messages_only g (stOpt.getD reset_state) data uid owner_id
  have hh : callbackHandler g stOpt data uid owner_id oracle nUrls now png_ok =
      (.okTrue, .answeredCallback :: effs, st1, g1) := by
    unfold callbackHandler
    rw [hd]
  rw [hh]
  rw [List.filter_eq_nil]
  intro e he
  simp only [List.mem_cons] at he
  rcases he with rfl | he
  · simp [Effect.isRouteArtifact]
  · obtain ⟨t, rfl⟩ := hm e he
    simp [Effect.isRouteArtifact]

end MotoRoute
